import Mathlib

/-!
Verification development for the Amul stock-alert bot.

Shallow embedding of the repository's core logic:
* `src/scheduler/stock_monitor.py` — the `StockMonitor` diff engine
  (`_process_stock_update`, `_check_substore_stock`, `check_all_stocks`)
  and the polling loop (`start` / `stop`), the latter as a small-step
  state machine.
* `src/scraper/amul_api.py` — raw item processing and SKU deduplication in
  `get_protein_products`, the browser fetch result model for
  `_enter_pincode_and_fetch`, the pincode range table
  `_get_fallback_substore`, and `search_pincode`.
* `src/database/db.py` — `get_active_users` as a row filter.

Python dicts are embedded as association lists, machine integers as `Int`
or `Nat`, exceptions as `Except`/`Option`, and external effects
(catalog fetch, subscription query, Telegram send) as explicit oracle
parameters.
-/

/-- A `(in_stock, quantity)` pair: the value stored in
`StockMonitor._stock_cache` for one `(user_id, sku)` key, and likewise the
stock-relevant part of a fetched product. The Python cache entry also
stores a constant `True` marker field; membership of the key in the dict
already encodes it, so it is omitted here. -/
structure StockState where
  in_stock : Bool
  quantity : Int
deriving Repr, DecidableEq

/-- The five notification types assigned in
`StockMonitor._process_stock_update` (lines 150-176). The spec's names for
them are: `back_in_stock` = restocked, `stock_increased` = increased,
`stock_decreased` = decreased, `low_stock` = low_stock, `sold_out` = sold_out. -/
inductive NotificationType where
  | back_in_stock
  | stock_increased
  | stock_decreased
  | low_stock
  | sold_out
deriving Repr, DecidableEq

/-- The `NotificationEvent` handed to `_send_notification`: receiver,
product SKU, kind, current quantity and the computed
`quantity_change = current_quantity - prev_quantity`. -/
structure Notification where
  user_id : Nat
  sku : String
  ntype : NotificationType
  quantity : Int
  quantity_change : Int
deriving Repr, DecidableEq

/-- The `should_notify` / `notification_type` decision chain of
`StockMonitor._process_stock_update` (stock_monitor.py lines 150-176),
given the cached previous state and the current state. Mirrors the Python
`if`/`elif` chain literally, including the inner branch order on
`quantity_change`. -/
def classify (prev cur : StockState) : Option NotificationType :=
  let quantity_change := cur.quantity - prev.quantity
  if cur.in_stock ∧ ¬ prev.in_stock then
    some .back_in_stock
  else if cur.in_stock ∧ prev.in_stock ∧ cur.quantity ≠ prev.quantity then
    if quantity_change > 0 then
      some .stock_increased
    else if quantity_change < 0 ∧ cur.quantity ≤ 10 then
      some .low_stock
    else if quantity_change < 0 then
      some .stock_decreased
    else
      none
  else if ¬ cur.in_stock ∧ prev.in_stock then
    some .sold_out
  else
    none

/-- The transition table of spec §4.4, written from the spec's words (not
from the code) for the refinement check of the diff engine: each row's
condition on `(previous, current)` states, rows pairwise exclusive. -/
def specTransitionKind (prev cur : StockState) : Option NotificationType :=
  if ¬ prev.in_stock ∧ cur.in_stock then
    some .back_in_stock
  else if prev.in_stock ∧ cur.in_stock ∧ cur.quantity > prev.quantity then
    some .stock_increased
  else if prev.in_stock ∧ cur.in_stock ∧ cur.quantity < prev.quantity ∧ cur.quantity ≤ 10 then
    some .low_stock
  else if prev.in_stock ∧ cur.in_stock ∧ cur.quantity < prev.quantity ∧ cur.quantity > 10 then
    some .stock_decreased
  else if prev.in_stock ∧ ¬ cur.in_stock then
    some .sold_out
  else
    none

/-- The code's decision chain coincides with the spec's transition table on
every input. -/
theorem classify_eq_specTransitionKind (prev cur : StockState) :
    classify prev cur = specTransitionKind prev cur := by
  rcases prev with ⟨pi, pq⟩
  rcases cur with ⟨ci, cq⟩
  cases pi <;> cases ci <;>
      simp only [classify, specTransitionKind, Bool.true_eq_false, Bool.false_eq_true,
        and_true, true_and, not_true_eq_false, not_false_eq_true, false_and, and_false,
        if_false, if_true] <;>
    split_ifs <;> first | rfl | omega

/-- Cache key of `StockMonitor._stock_cache`: `(user_id, sku)`. -/
abbrev CacheKey := Nat × String

/-- The in-memory stock cache `StockMonitor._stock_cache`, a Python dict
embedded as an association list. -/
abbrev StockCache := List (CacheKey × StockState)

/-- Dict lookup in the stock cache. -/
def cacheLookup (c : StockCache) (k : CacheKey) : Option StockState :=
  match c with
  | [] => none
  | (k', v) :: rest => if k' = k then some v else cacheLookup rest k

/-- Dict assignment `self._stock_cache[key] = value` (replaces an existing
binding, appends a fresh one). -/
def cacheInsert (c : StockCache) (k : CacheKey) (v : StockState) : StockCache :=
  match c with
  | [] => [(k, v)]
  | (k', v') :: rest =>
    if k' = k then (k, v) :: rest else (k', v') :: cacheInsert rest k v

theorem cacheLookup_cacheInsert_self (c : StockCache) (k : CacheKey) (v : StockState) :
    cacheLookup (cacheInsert c k v) k = some v := by
  induction c with
  | nil => simp [cacheInsert, cacheLookup]
  | cons hd tl ih =>
    rcases hd with ⟨k', v'⟩
    by_cases h : k' = k <;> simp [cacheInsert, cacheLookup, h, ih]

theorem cacheLookup_cacheInsert_ne (c : StockCache) {k k' : CacheKey} (v : StockState)
    (h : k' ≠ k) : cacheLookup (cacheInsert c k v) k' = cacheLookup c k' := by
  have hne : ¬ (k = k') := fun h' => h h'.symm
  induction c with
  | nil => simp [cacheInsert, cacheLookup, hne]
  | cons hd tl ih =>
    rcases hd with ⟨k₀, v₀⟩
    by_cases h₀ : k₀ = k
    · subst h₀
      simp [cacheInsert, cacheLookup, hne]
    · simp only [cacheInsert, if_neg h₀]
      by_cases h₁ : k₀ = k' <;> simp [cacheLookup, h₁, ih]

/-- The stock-relevant fields of one processed product dict as consumed by
the monitor (`product["sku"]`, `product["in_stock"]`, `product["quantity"]`;
the display fields used only for message text are irrelevant to the diff
and omitted). -/
structure MonProduct where
  sku : String
  in_stock : Bool
  quantity : Int
deriving Repr, DecidableEq

/-- `StockMonitor._process_stock_update` (stock_monitor.py lines 116-179) as
a pure function: given the cache, the user id and the current product,
return the updated cache and the notification event dispatched (if any).
First observation of the `(user_id, sku)` key records the baseline and
returns without notifying; otherwise the cache is updated to the current
state and the decision chain `classify` picks the notification. -/
def process_stock_update (cache : StockCache) (user_id : Nat) (p : MonProduct) :
    StockCache × Option Notification :=
  let key : CacheKey := (user_id, p.sku)
  let cur : StockState := ⟨p.in_stock, p.quantity⟩
  match cacheLookup cache key with
  | none => (cacheInsert cache key cur, none)
  | some prev =>
    let cache' := cacheInsert cache key cur
    match classify prev cur with
    | none => (cache', none)
    | some t =>
      (cache', some ⟨user_id, p.sku, t, p.quantity, cur.quantity - prev.quantity⟩)

/-- C1: For every (user_id, sku) pair, the very first observation of that
pair by the StockMonitor emits no NotificationEvent: it only records the
observed (in_stock, quantity) as the baseline in the in-memory cache and
returns without notifying, regardless of the observed stock state. -/
theorem first_observation_emits_nothing (cache : StockCache) (user_id : Nat)
    (p : MonProduct) (h : cacheLookup cache (user_id, p.sku) = none) :
    process_stock_update cache user_id p =
      (cacheInsert cache (user_id, p.sku) ⟨p.in_stock, p.quantity⟩, none) := by
  simp [process_stock_update, h]

theorem first_observation_emits_nothing_witness :
    cacheLookup [] (7, "AMUL-WPC-1") = none ∧
      process_stock_update [] 7 ⟨"AMUL-WPC-1", true, 25⟩ =
        ([((7, "AMUL-WPC-1"), ⟨true, 25⟩)], none) :=
  ⟨rfl, first_observation_emits_nothing [] 7 ⟨"AMUL-WPC-1", true, 25⟩ rfl⟩

/-- C2: For every non-first observation of a (user_id, sku) pair, the
emitted notification kind matches exactly one row of the spec §4.4
transition table on `(prev, cur)` (restocked / increased / low_stock /
decreased / sold_out, with any other combination emitting nothing), and
the reported quantity delta equals `cur_qty - prev_qty`. -/
theorem subsequent_observation_matches_table (cache : StockCache) (user_id : Nat)
    (p : MonProduct) (prev : StockState)
    (h : cacheLookup cache (user_id, p.sku) = some prev) :
    (process_stock_update cache user_id p).2 =
      (specTransitionKind prev ⟨p.in_stock, p.quantity⟩).map
        (fun t => ⟨user_id, p.sku, t, p.quantity, p.quantity - prev.quantity⟩) := by
  have hc := classify_eq_specTransitionKind prev ⟨p.in_stock, p.quantity⟩
  simp only [process_stock_update, h, hc]
  cases hs : specTransitionKind prev ⟨p.in_stock, p.quantity⟩ <;> simp [hs]

theorem subsequent_observation_matches_table_witness :
    cacheLookup [((7, "AMUL-WPC-1"), ⟨true, 20⟩)] (7, "AMUL-WPC-1") =
        some ⟨true, 20⟩ ∧
      (process_stock_update [((7, "AMUL-WPC-1"), ⟨true, 20⟩)] 7
          ⟨"AMUL-WPC-1", true, 8⟩).2 =
        (specTransitionKind ⟨true, 20⟩ ⟨true, 8⟩).map
          (fun t => ⟨7, "AMUL-WPC-1", t, 8, (8 : Int) - 20⟩) :=
  ⟨rfl, subsequent_observation_matches_table
    [((7, "AMUL-WPC-1"), ⟨true, 20⟩)] 7 ⟨"AMUL-WPC-1", true, 8⟩ ⟨true, 20⟩ rfl⟩

/-- The dict comprehension `{p["sku"]: p for p in products}` of
`_check_substore_stock` (stock_monitor.py line 97): a SKU-keyed lookup
table; on duplicate SKUs the later binding overwrites (Python dict
semantics). -/
def assocInsertP (m : List (String × MonProduct)) (k : String) (v : MonProduct) :
    List (String × MonProduct) :=
  match m with
  | [] => [(k, v)]
  | (k', v') :: rest =>
    if k' = k then (k, v) :: rest else (k', v') :: assocInsertP rest k v

/-- Lookup `stock_by_sku.get(sku)`. -/
def assocLookupP (m : List (String × MonProduct)) (k : String) : Option MonProduct :=
  match m with
  | [] => none
  | (k', v) :: rest => if k' = k then some v else assocLookupP rest k

/-- `stock_by_sku = {p["sku"]: p for p in products}`. -/
def stock_by_sku (products : List MonProduct) : List (String × MonProduct) :=
  products.foldl (fun m p => assocInsertP m p.sku p) []

/-- The inner subscription loop of `_check_substore_stock`
(stock_monitor.py lines 106-114) for one user: for each subscribed SKU,
look it up in the fresh snapshot; skip it when absent, else run
`_process_stock_update`. Each dispatched notification is paired with the
send outcome drawn from the `sendOk` oracle (`bot.send_message` succeeding
or raising a caught `TelegramError`, stock_monitor.py lines 238-254); the
send outcome influences nothing else in the tick's stock processing. -/
def process_user_subs (sendOk : Notification → Bool) (m : List (String × MonProduct))
    (uid : Nat) (skus : List String) (cache : StockCache) :
    StockCache × List (Notification × Bool) :=
  match skus with
  | [] => (cache, [])
  | sku :: rest =>
    match assocLookupP m sku with
    | none => process_user_subs sendOk m uid rest cache
    | some p =>
      let r := process_stock_update cache uid p
      let sent := (r.2.map (fun n => (n, sendOk n))).toList
      let r' := process_user_subs sendOk m uid rest r.1
      (r'.1, sent ++ r'.2)

/-- The outer user loop of `_check_substore_stock` (stock_monitor.py lines
100-114): each user's subscriptions come from the store oracle `subs`
(`db.get_user_subscriptions`); an empty subscription list is skipped, which
equals processing the empty list. -/
def check_users (sendOk : Notification → Bool) (m : List (String × MonProduct))
    (subs : Nat → List String) (uids : List Nat) (cache : StockCache) :
    StockCache × List (Notification × Bool) :=
  match uids with
  | [] => (cache, [])
  | uid :: rest =>
    let r := process_user_subs sendOk m uid (subs uid) cache
    let r' := check_users sendOk m subs rest r.1
    (r'.1, r.2 ++ r'.2)

/-- `StockMonitor._check_substore_stock` (stock_monitor.py lines 68-114)
restricted to its effect on the stock cache and the dispatched
notifications: with an empty fetched product list it returns at line 81
leaving the cache untouched; otherwise it builds `stock_by_sku` and runs
every user's subscriptions against it. (The `db.upsert_product` writes to
the external store at lines 84-94 do not touch the in-memory cache and are
outside this model.) -/
def check_substore_stock (sendOk : Notification → Bool) (products : List MonProduct)
    (subs : Nat → List String) (uids : List Nat) (cache : StockCache) :
    StockCache × List (Notification × Bool) :=
  if products.isEmpty then (cache, [])
  else check_users sendOk (stock_by_sku products) subs uids cache

/-- One stored user row as returned by the `users` table (db.py lines
27-39); `user_id` is the primary key. `pincode` and `substore_id` are
nullable TEXT columns. -/
structure UserRow where
  user_id : Nat
  is_active : Bool
  pincode : Option String
  substore_id : Option String
deriving Repr, DecidableEq

/-- `Database.get_active_users` (db.py lines 138-146):
`SELECT * FROM users WHERE is_active = 1 AND pincode IS NOT NULL`. -/
def get_active_users (rows : List UserRow) : List UserRow :=
  rows.filter (fun u => u.is_active && u.pincode.isSome)

/-- Append user `u` to the group keyed `sid`, creating the group at the end
when absent: the dict-of-lists build-up of stock_monitor.py lines 55-57. -/
def addToGroup (groups : List (String × List UserRow)) (sid : String) (u : UserRow) :
    List (String × List UserRow) :=
  match groups with
  | [] => [(sid, [u])]
  | (k, us) :: rest =>
    if k = sid then (k, us ++ [u]) :: rest else (k, us) :: addToGroup rest sid u

/-- The grouping loop of `check_all_stocks` (stock_monitor.py lines 50-57):
users whose `substore_id` is falsy (`None` or `""`) are put in no group. -/
def group_users : List UserRow → List (String × List UserRow) → List (String × List UserRow)
  | [], acc => acc
  | u :: rest, acc =>
    match u.substore_id with
    | none => group_users rest acc
    | some sid => if sid = "" then group_users rest acc else group_users rest (addToGroup acc sid u)

/-- The per-substore loop of `check_all_stocks` (stock_monitor.py lines
59-66): each group's check runs under a `try`/`except`; the `fetch` oracle
models `AmulAPI.get_protein_products` for that substore, with `.error`
standing for an exception raised while checking the partition (caught at
line 65, leaving the cache as it was and moving to the next substore). -/
def runGroups (sendOk : Notification → Bool)
    (fetch : String → Except Unit (List MonProduct)) (subs : Nat → List String)
    (groups : List (String × List Nat)) (cache : StockCache) :
    StockCache × List (Notification × Bool) :=
  match groups with
  | [] => (cache, [])
  | (sid, uids) :: rest =>
    match fetch sid with
    | .error _ => runGroups sendOk fetch subs rest cache
    | .ok products =>
      let r := check_substore_stock sendOk products subs uids cache
      let r' := runGroups sendOk fetch subs rest r.1
      (r'.1, r.2 ++ r'.2)

/-- `StockMonitor.check_all_stocks` (stock_monitor.py lines 39-66): query
the active users, return early when there are none, group them by substore,
then check each substore group in order. -/
def check_all_stocks (sendOk : Notification → Bool)
    (fetch : String → Except Unit (List MonProduct)) (subs : Nat → List String)
    (rows : List UserRow) (cache : StockCache) :
    StockCache × List (Notification × Bool) :=
  let active := get_active_users rows
  if active.isEmpty then (cache, [])
  else
    let groups := group_users active []
    runGroups sendOk fetch subs (groups.map (fun g => (g.1, g.2.map (·.user_id)))) cache

theorem process_stock_update_fst_lookup_self (cache : StockCache) (uid : Nat)
    (p : MonProduct) :
    cacheLookup (process_stock_update cache uid p).1 (uid, p.sku) =
      some ⟨p.in_stock, p.quantity⟩ := by
  simp only [process_stock_update]
  cases hc : cacheLookup cache (uid, p.sku) with
  | none => simp [cacheLookup_cacheInsert_self]
  | some prev =>
    cases hcl : classify prev ⟨p.in_stock, p.quantity⟩ <;>
      simp [hcl, cacheLookup_cacheInsert_self]

theorem process_stock_update_fst_lookup_ne (cache : StockCache) (uid : Nat)
    (p : MonProduct) {k : CacheKey} (h : k ≠ (uid, p.sku)) :
    cacheLookup (process_stock_update cache uid p).1 k = cacheLookup cache k := by
  simp only [process_stock_update]
  cases hc : cacheLookup cache (uid, p.sku) with
  | none => simpa using cacheLookup_cacheInsert_ne cache _ h
  | some prev =>
    cases hcl : classify prev ⟨p.in_stock, p.quantity⟩ <;> simp only [hcl] <;>
      simpa using cacheLookup_cacheInsert_ne cache _ h

theorem assocLookupP_assocInsertP_self (m : List (String × MonProduct)) (k : String)
    (v : MonProduct) : assocLookupP (assocInsertP m k v) k = some v := by
  induction m with
  | nil => simp [assocInsertP, assocLookupP]
  | cons hd tl ih =>
    rcases hd with ⟨k', v'⟩
    by_cases h : k' = k <;> simp [assocInsertP, assocLookupP, h, ih]

theorem assocLookupP_assocInsertP_ne (m : List (String × MonProduct)) {k k' : String}
    (v : MonProduct) (h : k' ≠ k) :
    assocLookupP (assocInsertP m k v) k' = assocLookupP m k' := by
  have hne : ¬ (k = k') := fun h' => h h'.symm
  induction m with
  | nil => simp [assocInsertP, assocLookupP, hne]
  | cons hd tl ih =>
    rcases hd with ⟨k₀, v₀⟩
    by_cases h₀ : k₀ = k
    · subst h₀
      simp [assocInsertP, assocLookupP, hne]
    · simp only [assocInsertP, if_neg h₀]
      by_cases h₁ : k₀ = k' <;> simp [assocLookupP, h₁, ih]

/-- Key invariant of the SKU lookup table: every binding maps a SKU to a
product carrying exactly that SKU. -/
theorem stock_by_sku_sku_eq (products : List MonProduct) :
    ∀ k v, assocLookupP (stock_by_sku products) k = some v → v.sku = k := by
  have main : ∀ (ps : List MonProduct) (m : List (String × MonProduct)),
      (∀ k v, assocLookupP m k = some v → v.sku = k) →
      ∀ k v, assocLookupP (ps.foldl (fun m p => assocInsertP m p.sku p) m) k = some v →
        v.sku = k := by
    intro ps
    induction ps with
    | nil => intro m hm k v h; exact hm k v h
    | cons p rest ih =>
      intro m hm k v h
      refine ih (assocInsertP m p.sku p) ?_ k v h
      intro k₁ v₁ h₁
      by_cases hk : k₁ = p.sku
      · subst hk
        rw [assocLookupP_assocInsertP_self] at h₁
        cases h₁
        rfl
      · rw [assocLookupP_assocInsertP_ne m p hk] at h₁
        exact hm k₁ v₁ h₁
  intro k v h
  exact main products [] (by intro k v h; cases h) k v h

/-- Processing one user's subscription list touches no cache key whose SKU
is absent from the lookup table. -/
theorem process_user_subs_lookup_absent (sendOk : Notification → Bool)
    (m : List (String × MonProduct)) (hm : ∀ k v, assocLookupP m k = some v → v.sku = k)
    {sku : String} (habs : assocLookupP m sku = none) (uid : Nat) (skus : List String) :
    ∀ (cache : StockCache) (u : Nat),
      cacheLookup (process_user_subs sendOk m uid skus cache).1 (u, sku) =
        cacheLookup cache (u, sku) := by
  induction skus with
  | nil => intro cache u; rfl
  | cons sku' rest ih =>
    intro cache u
    simp only [process_user_subs]
    cases hl : assocLookupP m sku' with
    | none => exact ih cache u
    | some q =>
      have hq : q.sku = sku' := hm _ _ hl
      have hne : (u, sku) ≠ (uid, q.sku) := by
        intro hcontra
        have : sku = q.sku := congrArg Prod.snd hcontra
        rw [this, hq] at habs
        rw [habs] at hl
        cases hl
      simp only []
      rw [ih _ u, process_stock_update_fst_lookup_ne _ _ _ hne]

/-- Processing one user's subscriptions leaves every other user's cache
entries untouched. -/
theorem process_user_subs_lookup_other_user (sendOk : Notification → Bool)
    (m : List (String × MonProduct)) (uid : Nat) (skus : List String) :
    ∀ (cache : StockCache) (u : Nat) (sku : String), u ≠ uid →
      cacheLookup (process_user_subs sendOk m uid skus cache).1 (u, sku) =
        cacheLookup cache (u, sku) := by
  induction skus with
  | nil => intro cache u sku _; rfl
  | cons sku' rest ih =>
    intro cache u sku hu
    simp only [process_user_subs]
    cases hl : assocLookupP m sku' with
    | none => exact ih cache u sku hu
    | some q =>
      have hne : (u, sku) ≠ (uid, q.sku) := by
        intro hcontra
        exact hu (congrArg Prod.fst hcontra)
      simp only []
      rw [ih _ u sku hu, process_stock_update_fst_lookup_ne _ _ _ hne]

/-- For the user being processed: a subscribed SKU present in the lookup
table ends at the current snapshot value; a SKU not in the subscription
list is untouched. -/
theorem process_user_subs_lookup_main (sendOk : Notification → Bool)
    (m : List (String × MonProduct)) (hm : ∀ k v, assocLookupP m k = some v → v.sku = k)
    (u : Nat) {sku : String} {p : MonProduct} (hp : assocLookupP m sku = some p)
    (skus : List String) :
    ∀ cache : StockCache,
      (sku ∈ skus →
        cacheLookup (process_user_subs sendOk m u skus cache).1 (u, sku) =
          some ⟨p.in_stock, p.quantity⟩) ∧
      (sku ∉ skus →
        cacheLookup (process_user_subs sendOk m u skus cache).1 (u, sku) =
          cacheLookup cache (u, sku)) := by
  have hpsku : p.sku = sku := hm _ _ hp
  induction skus with
  | nil =>
    intro cache
    exact ⟨fun h => absurd h (List.not_mem_nil sku), fun _ => rfl⟩
  | cons sku' rest ih =>
    intro cache
    constructor
    · intro hmem
      simp only [process_user_subs]
      by_cases he : sku' = sku
      · subst he
        rw [hp]
        simp only []
        by_cases hr : sku' ∈ rest
        · exact ((ih _).1) hr
        · rw [((ih _).2) hr, ← hpsku, process_stock_update_fst_lookup_self]
      · have hmem' : sku ∈ rest := by
          rcases List.mem_cons.mp hmem with h | h
          · exact absurd h.symm he
          · exact h
        cases hl : assocLookupP m sku' with
        | none => exact ((ih _).1) hmem'
        | some q =>
          have hq : q.sku = sku' := hm _ _ hl
          simp only []
          exact ((ih _).1) hmem'
    · intro hnmem
      have hne' : sku ≠ sku' := fun h => hnmem (h ▸ List.mem_cons_self sku' rest)
      have hnr : sku ∉ rest := fun h => hnmem (List.mem_cons_of_mem _ h)
      simp only [process_user_subs]
      cases hl : assocLookupP m sku' with
      | none => exact ((ih _).2) hnr
      | some q =>
        have hq : q.sku = sku' := hm _ _ hl
        have hne : (u, sku) ≠ (u, q.sku) := by
          intro hcontra
          exact hne' (by simpa [hq] using congrArg Prod.snd hcontra)
        simp only []
        rw [((ih _).2) hnr, process_stock_update_fst_lookup_ne _ _ _ hne]

/-- A SKU absent from the fresh snapshot's lookup table is untouched for
every user processed in the tick. -/
theorem check_users_lookup_absent (sendOk : Notification → Bool)
    (m : List (String × MonProduct)) (hm : ∀ k v, assocLookupP m k = some v → v.sku = k)
    (subs : Nat → List String) {sku : String} (habs : assocLookupP m sku = none)
    (uids : List Nat) :
    ∀ (cache : StockCache) (u : Nat),
      cacheLookup (check_users sendOk m subs uids cache).1 (u, sku) =
        cacheLookup cache (u, sku) := by
  induction uids with
  | nil => intro cache u; rfl
  | cons uid rest ih =>
    intro cache u
    simp only [check_users]
    rw [ih _ u, process_user_subs_lookup_absent sendOk m hm habs uid (subs uid) cache u]

/-- A SKU present in the lookup table ends at the snapshot value for every
user in the tick who subscribes to it; for users outside the tick or not
subscribed, the entry is untouched. -/
theorem check_users_lookup_main (sendOk : Notification → Bool)
    (m : List (String × MonProduct)) (hm : ∀ k v, assocLookupP m k = some v → v.sku = k)
    (subs : Nat → List String) {sku : String} {p : MonProduct}
    (hp : assocLookupP m sku = some p) (uids : List Nat) :
    ∀ (cache : StockCache) (u : Nat),
      (u ∈ uids → sku ∈ subs u →
        cacheLookup (check_users sendOk m subs uids cache).1 (u, sku) =
          some ⟨p.in_stock, p.quantity⟩) ∧
      ((u ∉ uids ∨ sku ∉ subs u) →
        cacheLookup (check_users sendOk m subs uids cache).1 (u, sku) =
          cacheLookup cache (u, sku)) := by
  induction uids with
  | nil =>
    intro cache u
    exact ⟨fun h => absurd h (List.not_mem_nil u), fun _ => rfl⟩
  | cons uid rest ih =>
    intro cache u
    simp only [check_users]
    by_cases hu : uid = u
    · subst hu
      constructor
      · intro _ hsub
        by_cases hur : uid ∈ rest
        · exact (ih _ uid).1 hur hsub
        · rw [(ih _ uid).2 (Or.inl hur),
            (process_user_subs_lookup_main sendOk m hm uid hp (subs uid) cache).1 hsub]
      · intro hdisj
        rcases hdisj with hnm | hns
        · exact absurd (List.mem_cons_self uid rest) hnm
        · rw [(ih _ uid).2 (Or.inr hns),
            (process_user_subs_lookup_main sendOk m hm uid hp (subs uid) cache).2 hns]
    · have hpres := process_user_subs_lookup_other_user sendOk m uid (subs uid) cache u sku
        (fun h => hu h.symm)
      constructor
      · intro hmem hsub
        have hur : u ∈ rest := by
          rcases List.mem_cons.mp hmem with h | h
          · exact absurd h.symm hu
          · exact h
        exact (ih _ u).1 hur hsub
      · intro hdisj
        have hdisj' : u ∉ rest ∨ sku ∉ subs u := by
          rcases hdisj with hnm | hns
          · exact Or.inl (fun h => hnm (List.mem_cons_of_mem _ h))
          · exact Or.inr hns
        rw [(ih _ u).2 hdisj', hpres]

/-- The cache component of one user's subscription processing does not
depend on the send-outcome oracle. -/
theorem process_user_subs_fst_indep (ok₁ ok₂ : Notification → Bool)
    (m : List (String × MonProduct)) (uid : Nat) (skus : List String) :
    ∀ cache : StockCache,
      (process_user_subs ok₁ m uid skus cache).1 =
        (process_user_subs ok₂ m uid skus cache).1 := by
  induction skus with
  | nil => intro cache; rfl
  | cons sku rest ih =>
    intro cache
    simp only [process_user_subs]
    cases assocLookupP m sku <;> simp only [] <;> exact ih _

/-- The cache component of a whole-substore check does not depend on the
send-outcome oracle. -/
theorem check_users_fst_indep (ok₁ ok₂ : Notification → Bool)
    (m : List (String × MonProduct)) (subs : Nat → List String) (uids : List Nat) :
    ∀ cache : StockCache,
      (check_users ok₁ m subs uids cache).1 = (check_users ok₂ m subs uids cache).1 := by
  induction uids with
  | nil => intro cache; rfl
  | cons uid rest ih =>
    intro cache
    simp only [check_users]
    rw [process_user_subs_fst_indep ok₁ ok₂ m uid (subs uid) cache]
    exact ih _

/-- C3: After processing any tick for one substore, a cache entry for
(user_id, sku) equals the (in_stock, quantity) of the fresh snapshot when
the SKU appears in it and that pair's subscription was processed —
independent of the send outcomes — and an entry whose SKU is absent from
the snapshot is left completely unchanged, for every user. -/
theorem cache_entries_track_latest_snapshot (sendOk : Notification → Bool)
    (products : List MonProduct) (subs : Nat → List String) (uids : List Nat)
    (cache : StockCache) (u : Nat) (sku : String) :
    (assocLookupP (stock_by_sku products) sku = none →
      cacheLookup (check_substore_stock sendOk products subs uids cache).1 (u, sku) =
        cacheLookup cache (u, sku)) ∧
    (∀ p, assocLookupP (stock_by_sku products) sku = some p → u ∈ uids → sku ∈ subs u →
      cacheLookup (check_substore_stock sendOk products subs uids cache).1 (u, sku) =
        some ⟨p.in_stock, p.quantity⟩) ∧
    (∀ sendOk', (check_substore_stock sendOk' products subs uids cache).1 =
      (check_substore_stock sendOk products subs uids cache).1) := by
  have hm := stock_by_sku_sku_eq products
  by_cases hempty : products.isEmpty
  · refine ⟨fun _ => ?_, fun p hp _ _ => ?_, fun sendOk' => ?_⟩
    · simp [check_substore_stock, hempty]
    · rcases products with _ | ⟨q, qs⟩
      · cases hp
      · cases hempty
    · simp [check_substore_stock, hempty]
  · refine ⟨fun habs => ?_, fun p hp hmem hsub => ?_, fun sendOk' => ?_⟩
    · simp only [check_substore_stock, if_neg hempty]
      exact check_users_lookup_absent sendOk _ hm subs habs uids cache u
    · simp only [check_substore_stock, if_neg hempty]
      exact (check_users_lookup_main sendOk _ hm subs hp uids cache u).1 hmem hsub
    · simp only [check_substore_stock, if_neg hempty]
      exact check_users_fst_indep sendOk' sendOk _ subs uids cache

theorem cache_entries_track_latest_snapshot_witness :
    cacheLookup
        (check_substore_stock (fun _ => true) [⟨"AMUL-WPC-1", true, 8⟩]
          (fun _ => ["AMUL-WPC-1"]) [7] [((7, "AMUL-WPC-1"), ⟨true, 20⟩)]).1
        (7, "AMUL-WPC-1") = some ⟨true, 8⟩ :=
  (cache_entries_track_latest_snapshot (fun _ => true) [⟨"AMUL-WPC-1", true, 8⟩]
      (fun _ => ["AMUL-WPC-1"]) [7] [((7, "AMUL-WPC-1"), ⟨true, 20⟩)] 7
      "AMUL-WPC-1").2.1 ⟨"AMUL-WPC-1", true, 8⟩ (by decide) (by decide) (by decide)

/-- Control position of `StockMonitor.start` (stock_monitor.py lines
20-37): at the `while self.running` test, inside `check_all_stocks`'s
per-substore loop with the listed substores still to check (the head being
the one currently in progress), in the inter-tick `asyncio.sleep`, or
exited. -/
inductive LoopPhase where
  | loopTop
  | checking (remaining : List String)
  | sleeping
  | stopped
deriving Repr, DecidableEq

/-- The monitor's loop state: the `self.running` flag (written by `stop()`)
plus the control position. -/
structure LoopState where
  running : Bool
  phase : LoopPhase
deriving Repr, DecidableEq

/-- One small step of the monitor loop, for a process whose tick checks the
substores `parts`. The per-substore loop (lines 60-66) never consults
`self.running`; only the `while` test at line 25 does, and the sleep at
line 32 runs after every tick, stopped or not. -/
def loopStep (parts : List String) (s : LoopState) : LoopState :=
  match s.phase with
  | .loopTop =>
    if s.running then { s with phase := .checking parts }
    else { s with phase := .stopped }
  | .checking [] => { s with phase := .sleeping }
  | .checking (_ :: rem) => { s with phase := .checking rem }
  | .sleeping => { s with phase := .loopTop }
  | .stopped => s

/-- `StockMonitor.stop()` (lines 34-37): clears `self.running`; delivered
at any point, it changes no control position. -/
def stopSignal (s : LoopState) : LoopState := { s with running := false }

/-- An exception escaping `check_all_stocks` mid-tick: caught by the
`try`/`except` of lines 26-29, after which the loop proceeds to the
inter-tick sleep. -/
def tickAbort (s : LoopState) : LoopState :=
  match s.phase with
  | .checking _ => { s with phase := .sleeping }
  | _ => s

/-- Iterate the loop `n` steps. -/
def stepN (parts : List String) : Nat → LoopState → LoopState
  | 0, s => s
  | n + 1, s => stepN parts n (loopStep parts s)

/-- The substores the loop still checks before it exits, reading the run
off step by step (`fuel` bounds the trace length). -/
def processedUntilStop (parts : List String) : LoopState → Nat → List String
  | _, 0 => []
  | s, fuel + 1 =>
    match s.phase with
    | .checking (p :: _) => p :: processedUntilStop parts (loopStep parts s) fuel
    | .stopped => []
    | _ => processedUntilStop parts (loopStep parts s) fuel

/-- C7: A partition whose check raises is skipped by the per-substore
`try`/`except` with the cache as it was, and the rest of the tick runs
exactly as if that partition were absent; and a tick aborted by an uncaught
exception is caught by the loop's top-level handler, so the next tick is
still scheduled. -/
theorem partition_failure_is_isolated (sendOk : Notification → Bool)
    (fetch : String → Except Unit (List MonProduct)) (subs : Nat → List String)
    (sid : String) (uids : List Nat) (rest : List (String × List Nat))
    (cache : StockCache) (hfail : fetch sid = .error ()) :
    runGroups sendOk fetch subs ((sid, uids) :: rest) cache =
      runGroups sendOk fetch subs rest cache ∧
    ∀ parts rem : List String,
      loopStep parts (loopStep parts (tickAbort ⟨true, .checking rem⟩)) =
        ⟨true, .checking parts⟩ := by
  constructor
  · simp [runGroups, hfail]
  · intro parts rem
    rfl

theorem partition_failure_is_isolated_witness :
    runGroups (fun _ => true)
        (fun sid => if sid = "A" then .error () else .ok [⟨"S", true, 5⟩])
        (fun _ => ["S"]) [("A", [1]), ("B", [2])] [((2, "S"), ⟨false, 0⟩)] =
      runGroups (fun _ => true)
        (fun sid => if sid = "A" then .error () else .ok [⟨"S", true, 5⟩])
        (fun _ => ["S"]) [("B", [2])] [((2, "S"), ⟨false, 0⟩)] ∧
    ∀ parts rem : List String,
      loopStep parts (loopStep parts (tickAbort ⟨true, .checking rem⟩)) =
        ⟨true, .checking parts⟩ :=
  partition_failure_is_isolated (fun _ => true)
    (fun sid => if sid = "A" then .error () else .ok [⟨"S", true, 5⟩])
    (fun _ => ["S"]) "A" [1] [("B", [2])] [((2, "S"), ⟨false, 0⟩)] rfl

/-- C8 counterexample: with the stop signal delivered while the first of
two substores is in progress, the loop still checks the second substore as
well — not only the one in progress — before exiting. -/
theorem stop_mid_tick_checks_remaining_partitions :
    processedUntilStop ["mumbai-br", "delhi"]
        (stopSignal ⟨true, .checking ["mumbai-br", "delhi"]⟩) 10 ≠ ["mumbai-br"] ∧
    processedUntilStop ["mumbai-br", "delhi"]
        (stopSignal ⟨true, .checking ["mumbai-br", "delhi"]⟩) 10 =
      ["mumbai-br", "delhi"] := by
  constructor <;> decide

/-- C8 amended: a stop signal delivered mid-tick takes effect only at the
`while` test: the loop finishes every remaining substore of the current
tick plus the inter-tick sleep, and only then exits, so shutdown latency is
bounded by the remainder of a full tick plus the sleep interval, not by one
partition's fetch. -/
theorem stop_mid_tick_finishes_full_tick_then_exits (parts rem : List String) :
    processedUntilStop parts (stopSignal ⟨true, .checking rem⟩) (rem.length + 4) = rem ∧
    stepN parts (rem.length + 3) (stopSignal ⟨true, .checking rem⟩) =
      ⟨false, .stopped⟩ := by
  have main : ∀ rem : List String,
      processedUntilStop parts (⟨false, .checking rem⟩ : LoopState) (rem.length + 4) = rem ∧
      stepN parts (rem.length + 3) (⟨false, .checking rem⟩ : LoopState) =
        ⟨false, .stopped⟩ := by
    intro rem
    induction rem with
    | nil => exact ⟨rfl, rfl⟩
    | cons p r ih =>
      constructor
      · show p :: processedUntilStop parts (loopStep parts ⟨false, .checking (p :: r)⟩)
            (r.length + 4) = p :: r
        rw [show loopStep parts ⟨false, .checking (p :: r)⟩ =
              (⟨false, .checking r⟩ : LoopState) from rfl, ih.1]
      · show stepN parts (r.length + 3) (loopStep parts ⟨false, .checking (p :: r)⟩) =
            ⟨false, .stopped⟩
        rw [show loopStep parts ⟨false, .checking (p :: r)⟩ =
              (⟨false, .checking r⟩ : LoopState) from rfl, ih.2]
  exact main rem

/-- `config.AMUL_BASE_URL` (config.py line 10). -/
def AMUL_BASE_URL : String := "https://shop.amul.com"

/-- One element of a raw item's `images` array: either a dict with optional
`image`/`url` keys or a plain value rendered with `str` (amul_api.py lines
528-535). -/
inductive ImageEntry where
  | dict (image : Option String) (url : Option String)
  | plain (s : String)
deriving Repr, DecidableEq

/-- `AmulAPI._get_image_url` (amul_api.py lines 528-535): first entry of the
array; for a dict, `img.get("image", "") or img.get("url", "")` (Python
`or` falls through on the empty string); empty array gives `""`. -/
def get_image_url (images : List ImageEntry) : String :=
  match images with
  | [] => ""
  | .dict image url :: _ =>
    let a := image.getD ""
    if a = "" then url.getD "" else a
  | .plain s :: _ => s

/-- One raw intercepted item as read by `get_protein_products` (amul_api.py
lines 502-523): every field is fetched with `.get`, so each is optional.
`inventory_quantity` is the site's partition-agnostic total warehouse
stock; it is carried here to show the processing never reads it. -/
structure RawItem where
  id : Option String
  name : Option String
  sku : Option String
  alias_ : Option String
  price : Option Int
  compare_price : Option Int
  available : Option Int
  inventory_quantity : Option Int
  inventory_allow_out_of_stock : Option Bool
  images : List ImageEntry
deriving Repr, DecidableEq

/-- One entry of the returned snapshot: the dict built at amul_api.py lines
511-523. -/
structure Product where
  id : Option String
  name : Option String
  sku : String
  alias_ : Option String
  price : Int
  compare_price : Int
  quantity : Int
  allow_out_of_stock : Bool
  in_stock : Bool
  image_url : String
  product_url : String
deriving Repr, DecidableEq

/-- Build the product dict from a raw item whose (truthy) SKU is `s`
(amul_api.py lines 506-523): `quantity` and `in_stock` come from the
partition-specific `available` field (default 0), never from
`inventory_quantity`. -/
def mkProduct (item : RawItem) (s : String) : Product :=
  let available_qty := item.available.getD 0
  { id := item.id
    name := item.name
    sku := s
    alias_ := item.alias_
    price := item.price.getD 0
    compare_price := item.compare_price.getD 0
    quantity := available_qty
    allow_out_of_stock := item.inventory_allow_out_of_stock.getD false
    in_stock := decide (available_qty > 0)
    image_url := get_image_url item.images
    product_url := AMUL_BASE_URL ++ "/en/product/" ++ item.alias_.getD "" }

/-- The dedup loop of `get_protein_products` (amul_api.py lines 499-526):
walk the raw list with the `seen_skus` set; an item is kept only when its
SKU is truthy (present and nonempty) and not seen before. -/
def process_items : List RawItem → List String → List Product
  | [], _ => []
  | item :: rest, seen =>
    match item.sku with
    | none => process_items rest seen
    | some s =>
      if s ≠ "" ∧ s ∉ seen then mkProduct item s :: process_items rest (s :: seen)
      else process_items rest seen

/-- Every snapshot entry originates from a raw item bearing its SKU, and
its quantity is that item's `available` amount. -/
theorem process_items_mem_origin (raw : List RawItem) :
    ∀ (seen : List String), ∀ p ∈ process_items raw seen,
      ∃ item ∈ raw, item.sku = some p.sku ∧ p.quantity = item.available.getD 0 := by
  induction raw with
  | nil => intro seen p hp; cases hp
  | cons item rest ih =>
    intro seen p hp
    simp only [process_items] at hp
    cases hsku : item.sku with
    | none =>
      simp only [hsku] at hp
      obtain ⟨it, hit, h⟩ := ih seen p hp
      exact ⟨it, List.mem_cons_of_mem _ hit, h⟩
    | some s =>
      simp only [hsku] at hp
      by_cases hc : s ≠ "" ∧ s ∉ seen
      · rw [if_pos hc] at hp
        rcases List.mem_cons.mp hp with hphead | hptail
        · subst hphead
          exact ⟨item, List.mem_cons_self _ _, by simp [hsku, mkProduct]⟩
        · obtain ⟨it, hit, h⟩ := ih _ p hptail
          exact ⟨it, List.mem_cons_of_mem _ hit, h⟩
      · rw [if_neg hc] at hp
        obtain ⟨it, hit, h⟩ := ih seen p hp
        exact ⟨it, List.mem_cons_of_mem _ hit, h⟩

/-- C4: For every ProductSnapshot produced by the catalog fetcher's item
processing, `in_stock` equals `quantity > 0`, where `quantity` is the
partition-specific `available` amount of a raw item bearing the SKU (never
an independently set flag, and never the warehouse `inventory_quantity`). -/
theorem in_stock_is_quantity_positive (raw : List RawItem) :
    ∀ p ∈ process_items raw [],
      p.in_stock = decide (p.quantity > 0) ∧
      ∃ item ∈ raw, item.sku = some p.sku ∧ p.quantity = item.available.getD 0 := by
  have instock : ∀ (seen : List String), ∀ p ∈ process_items raw seen,
      p.in_stock = decide (p.quantity > 0) := by
    induction raw with
    | nil => intro seen p hp; cases hp
    | cons item rest ih =>
      intro seen p hp
      simp only [process_items] at hp
      cases hsku : item.sku with
      | none =>
        simp only [hsku] at hp
        exact ih seen p hp
      | some s =>
        simp only [hsku] at hp
        by_cases hc : s ≠ "" ∧ s ∉ seen
        · rw [if_pos hc] at hp
          rcases List.mem_cons.mp hp with hphead | hptail
          · subst hphead; rfl
          · exact ih _ p hptail
        · rw [if_neg hc] at hp
          exact ih seen p hp
  intro p hp
  exact ⟨instock [] p hp, process_items_mem_origin raw [] p hp⟩

theorem in_stock_is_quantity_positive_witness :
    (mkProduct ⟨none, some "Whey", some "AMUL-WPC-1", none, some 399, none, some 0,
        some 120, none, []⟩ "AMUL-WPC-1") ∈
      process_items [⟨none, some "Whey", some "AMUL-WPC-1", none, some 399, none, some 0,
        some 120, none, []⟩] [] ∧
    (mkProduct ⟨none, some "Whey", some "AMUL-WPC-1", none, some 399, none, some 0,
        some 120, none, []⟩ "AMUL-WPC-1").in_stock =
      decide ((mkProduct ⟨none, some "Whey", some "AMUL-WPC-1", none, some 399, none,
        some 0, some 120, none, []⟩ "AMUL-WPC-1").quantity > 0) :=
  ⟨by decide,
    (in_stock_is_quantity_positive
      [⟨none, some "Whey", some "AMUL-WPC-1", none, some 399, none, some 0, some 120,
        none, []⟩] _ (by decide)).1⟩

/-- No snapshot entry carries a SKU already in the `seen_skus` set the walk
started with. -/
theorem process_items_sku_not_seen (raw : List RawItem) :
    ∀ (seen : List String), ∀ p ∈ process_items raw seen, p.sku ∉ seen := by
  induction raw with
  | nil => intro seen p hp; cases hp
  | cons item rest ih =>
    intro seen p hp
    simp only [process_items] at hp
    cases hsku : item.sku with
    | none =>
      simp only [hsku] at hp
      exact ih seen p hp
    | some s =>
      simp only [hsku] at hp
      by_cases hc : s ≠ "" ∧ s ∉ seen
      · rw [if_pos hc] at hp
        rcases List.mem_cons.mp hp with hphead | hptail
        · subst hphead
          exact hc.2
        · have := ih _ p hptail
          exact fun hmem => this (List.mem_cons_of_mem _ hmem)
      · rw [if_neg hc] at hp
        exact ih seen p hp

/-- The snapshot's SKU column is duplicate-free. -/
theorem process_items_sku_nodup (raw : List RawItem) :
    ∀ (seen : List String), ((process_items raw seen).map (fun p => p.sku)).Nodup := by
  induction raw with
  | nil => intro seen; simp [process_items]
  | cons item rest ih =>
    intro seen
    cases hsku : item.sku with
    | none =>
      simp only [process_items, hsku]
      exact ih seen
    | some s =>
      simp only [process_items, hsku]
      by_cases hc : s ≠ "" ∧ s ∉ seen
      · rw [if_pos hc]
        simp only [List.map_cons, List.nodup_cons]
        constructor
        · intro hmem
          obtain ⟨p, hp, hps⟩ := List.mem_map.mp hmem
          have := process_items_sku_not_seen rest (s :: seen) p hp
          exact this (hps ▸ List.mem_cons_self s seen)
        · exact ih _
      · rw [if_neg hc]
        exact ih seen

/-- Entries whose SKU is already in the starting `seen_skus` set never
appear, so filtering the walk's output for such a SKU gives nothing. -/
theorem process_items_filter_seen (raw : List RawItem) (seen : List String)
    (s : String) (hs : s ∈ seen) :
    (process_items raw seen).filter (fun p => p.sku == s) = [] := by
  rw [List.filter_eq_nil_iff]
  intro p hp
  have := process_items_sku_not_seen raw seen p hp
  simp only [beq_iff_eq]
  intro hps
  exact this (hps ▸ hs)

/-- First-occurrence-wins: the single snapshot entry for a SKU is built
from the first raw item bearing it. -/
theorem process_items_filter_first (raw : List RawItem) :
    ∀ (seen : List String) (s : String) (it : RawItem), s ≠ "" → s ∉ seen →
      raw.find? (fun i => i.sku == some s) = some it →
      (process_items raw seen).filter (fun p => p.sku == s) = [mkProduct it s] := by
  induction raw with
  | nil => intro seen s it _ _ hfind; cases hfind
  | cons item rest ih =>
    intro seen s it hs hseen hfind
    cases hsku : item.sku with
    | none =>
      simp only [process_items, hsku]
      rw [List.find?_cons_of_neg _ (by simp [hsku])] at hfind
      exact ih seen s it hs hseen hfind
    | some t =>
      simp only [process_items, hsku]
      by_cases hts : t = s
      · subst hts
        have hc : t ≠ "" ∧ t ∉ seen := ⟨hs, hseen⟩
        rw [if_pos hc]
        rw [List.find?_cons_of_pos _ (by simp [hsku])] at hfind
        cases hfind
        rw [List.filter_cons_of_pos (by simp [mkProduct])]
        rw [process_items_filter_seen rest (t :: seen) t (List.mem_cons_self t seen)]
      · have hfind' : rest.find? (fun i => i.sku == some s) = some it := by
          rw [List.find?_cons_of_neg _ (by simp [hsku, hts])] at hfind
          exact hfind
        by_cases hc : t ≠ "" ∧ t ∉ seen
        · rw [if_pos hc]
          rw [List.filter_cons_of_neg (by simp [mkProduct, hts])]
          refine ih (t :: seen) s it hs ?_ hfind'
          intro hmem
          rcases List.mem_cons.mp hmem with h | h
          · exact hts h.symm
          · exact hseen h
        · rw [if_neg hc]
          exact ih seen s it hs hseen hfind'

/-- C5: SKU deduplication in the catalog fetcher is first-occurrence-wins:
the snapshot's SKU column is duplicate-free, every entry's SKU is borne by
some raw item, and for any SKU borne by a raw item the snapshot's unique
entry for it is built from the first such item; later duplicates are
discarded. -/
theorem sku_dedup_first_occurrence_wins (raw : List RawItem) :
    ((process_items raw []).map (fun p => p.sku)).Nodup ∧
    (∀ p ∈ process_items raw [], ∃ item ∈ raw, item.sku = some p.sku) ∧
    (∀ (s : String) (it : RawItem), s ≠ "" →
      raw.find? (fun i => i.sku == some s) = some it →
      (process_items raw []).filter (fun p => p.sku == s) = [mkProduct it s]) := by
  refine ⟨process_items_sku_nodup raw [], ?_, ?_⟩
  · intro p hp
    obtain ⟨item, hmem, hsku, _⟩ := process_items_mem_origin raw [] p hp
    exact ⟨item, hmem, hsku⟩
  · intro s it hs hfind
    exact process_items_filter_first raw [] s it hs (List.not_mem_nil s) hfind

theorem sku_dedup_first_occurrence_wins_witness :
    List.filter (fun p => p.sku == "AMUL-WPC-1")
        (process_items
          [⟨some "a1", some "Whey", some "AMUL-WPC-1", some "whey", some 399, some 449,
              some 5, some 100, some false, []⟩,
            ⟨some "a2", some "Whey dup", some "AMUL-WPC-1", some "whey2", some 425,
              some 449, some 9, some 100, some false, []⟩] []) =
      [mkProduct ⟨some "a1", some "Whey", some "AMUL-WPC-1", some "whey", some 399,
        some 449, some 5, some 100, some false, []⟩ "AMUL-WPC-1"] :=
  (sku_dedup_first_occurrence_wins
      [⟨some "a1", some "Whey", some "AMUL-WPC-1", some "whey", some 399, some 449,
          some 5, some 100, some false, []⟩,
        ⟨some "a2", some "Whey dup", some "AMUL-WPC-1", some "whey2", some 425,
          some 449, some 9, some 100, some false, []⟩]).2.2 "AMUL-WPC-1"
    ⟨some "a1", some "Whey", some "AMUL-WPC-1", some "whey", some 399, some 449,
      some 5, some 100, some false, []⟩ (by decide) (by decide)

/-- One chronological event inside `_enter_pincode_and_fetch`'s browser
session (amul_api.py lines 90-236): either an intercepted `ms.products`
response appending a batch of raw items to `result['products']` (lines
140-145), or an exception raised in the page-interaction block — caught at
line 231, which abandons the rest of the interaction but still returns the
result accumulated so far. -/
inductive FetchEvent where
  | items (batch : List RawItem)
  | browserError
deriving Repr, DecidableEq

/-- The raw item list `_enter_pincode_and_fetch` returns for a given event
sequence: batches accumulate in order until the script ends or an error
aborts the remainder. -/
def enter_pincode_and_fetch : List FetchEvent → List RawItem
  | [] => []
  | .items b :: rest => b ++ enter_pincode_and_fetch rest
  | .browserError :: _ => []

/-- Replacement write into `self._products_cache` (amul_api.py line 492). -/
def pcacheInsert (m : List (String × List RawItem)) (k : String) (v : List RawItem) :
    List (String × List RawItem) :=
  match m with
  | [] => [(k, v)]
  | (k', v') :: rest =>
    if k' = k then (k, v) :: rest else (k', v') :: pcacheInsert rest k v

/-- `AmulAPI.get_protein_products` (amul_api.py lines 472-526) for the
pincode actually used (lines 474-481 pick `canonical_pincode` /
`pincode` / the `'400001'` default; the chosen value is the `pincode`
argument here). `fetch` is the outcome of `_run_async(...)`: `.error`
models an exception escaping the fetch machinery itself, caught at line
493 with an empty-list return; `.ok events` is a completed browser session
whose accumulated raw list is processed. An empty raw list returns at line
489 before the cache write; a non-empty one is written to
`_products_cache` and deduplicated. The cache is only ever written, never
read for the result. -/
def get_protein_products (pcache : List (String × List RawItem)) (pincode : String)
    (fetch : Except Unit (List FetchEvent)) :
    List Product × List (String × List RawItem) :=
  match fetch with
  | .error _ => ([], pcache)
  | .ok events =>
    let raw_products := enter_pincode_and_fetch events
    if raw_products.isEmpty then ([], pcache)
    else (process_items raw_products [], pcacheInsert pcache pincode raw_products)

/-- C6 counterexample: a browser error during the fetch does not always
yield an empty product list — when a product response was intercepted
before the error, the items accumulated so far are processed and returned. -/
theorem browser_error_can_yield_nonempty_list :
    (get_protein_products [] "400001"
        (.ok [.items [⟨some "a1", some "Whey", some "AMUL-WPC-1", some "whey",
            some 399, some 449, some 5, some 100, some false, []⟩],
          .browserError])).1 =
      [mkProduct ⟨some "a1", some "Whey", some "AMUL-WPC-1", some "whey", some 399,
        some 449, some 5, some 100, some false, []⟩ "AMUL-WPC-1"] ∧
    (get_protein_products [] "400001"
        (.ok [.items [⟨some "a1", some "Whey", some "AMUL-WPC-1", some "whey",
            some 399, some 449, some 5, some 100, some false, []⟩],
          .browserError])).1 ≠ [] := by
  constructor <;> decide

/-- C6 amended: an error escaping the fetch machinery (raised into
`get_protein_products`) yields an empty list, an empty intercepted raw
list yields an empty list, a browser error inside the page-interaction
script yields exactly the items intercepted before it (so an error
preceding any interception yields an empty list), and the returned product
list never depends on the previously cached snapshot. -/
theorem fetch_failure_policy (pincode : String) (fetch : Except Unit (List FetchEvent)) :
    (∀ c₁ c₂ : List (String × List RawItem),
      (get_protein_products c₁ pincode fetch).1 = (get_protein_products c₂ pincode fetch).1) ∧
    (∀ e, fetch = .error e →
      ∀ c, (get_protein_products c pincode fetch).1 = []) ∧
    (∀ events, fetch = .ok events → enter_pincode_and_fetch events = [] →
      ∀ c, (get_protein_products c pincode fetch).1 = []) ∧
    (∀ pre post : List FetchEvent,
      enter_pincode_and_fetch (pre ++ .browserError :: post) =
        enter_pincode_and_fetch pre) := by
  refine ⟨?_, ?_, ?_, ?_⟩
  · intro c₁ c₂
    cases fetch with
    | error e => rfl
    | ok events =>
      simp only [get_protein_products]
      by_cases h : (enter_pincode_and_fetch events).isEmpty <;> simp [h]
  · intro e he c
    subst he
    rfl
  · intro events he hemp c
    subst he
    simp [get_protein_products, hemp]
  · intro pre post
    induction pre with
    | nil => rfl
    | cons ev rest ih =>
      cases ev with
      | items b => simp [enter_pincode_and_fetch, ih]
      | browserError => rfl

theorem fetch_failure_policy_witness :
    (get_protein_products [("400001", [⟨some "a1", some "Whey", some "AMUL-WPC-1",
        some "whey", some 399, some 449, some 5, some 100, some false, []⟩])] "400001"
      (.error ())).1 = [] :=
  (fetch_failure_policy "400001" (.error ())).2.1 () rfl
    [("400001", [⟨some "a1", some "Whey", some "AMUL-WPC-1", some "whey", some 399,
      some 449, some 5, some 100, some false, []⟩])]

/-- The `SUBSTORE_IDS` dict (amul_api.py lines 12-53): region alias to the
site's opaque substore id. -/
def SUBSTORE_IDS : List (String × String) :=
  [("goa", "66506005147d6c73c1110115"),
   ("telangana", "66506004aa64743ceefbed25"),
   ("pune-br", "66506004a7cddee1b8adb014"),
   ("solapur-br", "66506004145c16635e6cc914"),
   ("nashik-br", "66506002c8f2d6e221b9193a88"),
   ("aurangabad-br", "66506002aa64743ceefbecf1"),
   ("chhattisgarh", "66506002998183e1b1935f41"),
   ("mumbai-br", "66506000c8f2d6e221b9193a"),
   ("dadra-and-nagar-haveli", "6650600062e3d963520d0bc3"),
   ("west-bengal", "6650600024e61363e088c526"),
   ("odisha", "66505ffeaf6a3c7411d2f62c"),
   ("sikkim", "66505ffe91ab653d60a3df2d"),
   ("tripura", "66505ffe78117873bb53b6ad"),
   ("mizoram", "66505ffd998183e1b1935e21"),
   ("meghalaya", "66505ffd672747740fb389c7"),
   ("nagaland", "66505ffd24e61363e088c4a5"),
   ("manipur", "66505ffbf40e263cf5588098"),
   ("jharkhand", "66505ffb998183e1b1935dee"),
   ("assam", "66505ffb6510ee3d5903fef8"),
   ("bihar", "66505ff9af6a3c7411d2f55f"),
   ("arunachal-pradesh", "66505ff978117873bb53b643"),
   ("uttar-pradesh-e", "66505ff924e61363e088c414"),
   ("up-ncr", "66505ff8c8f2d6e221b9180c"),
   ("uttrakhand", "66505ff8a7cddee1b8adae9d"),
   ("rajasthan", "66505ff824e61363e088c3dd"),
   ("jandk", "66505ff6f40e263cf5587fb5"),
   ("madhya-pradesh", "66505ff6d9346de216752cd7"),
   ("ladakh", "66505ff6145c16635e6cc7c1"),
   ("haryana", "66505ff5af6a3c7411d2f4b2"),
   ("tamil-nadu-1", "66505ff578117873bb53b56a"),
   ("delhi", "66505ff5145c16635e6cc74d"),
   ("punjab", "66505ff3998183e1b1935d0e"),
   ("andhra-pradesh", "66505ff378117873bb53b542"),
   ("pondicherry", "66505ff312a50963f24870e8"),
   ("kerala", "66505ff2998183e1b1935ccd"),
   ("himachal-pradesh", "66505ff26510ee3d5903fda9"),
   ("chandigarh", "66505ff1672747740fb388ec"),
   ("karnataka", "66505ff0998183e1b1935c75"),
   ("gujarat", "66505ff06510ee3d5903fd42"),
   ("daman-and-diu", "66505ff024e61363e088c306")]

/-- `AmulAPI._get_substore_id` (amul_api.py lines 67-69):
`SUBSTORE_IDS.get(alias)`. -/
def get_substore_id (alias_ : String) : Option String :=
  (SUBSTORE_IDS.find? (fun kv => kv.1 == alias_)).map (fun kv => kv.2)

/-- A resolved pincode record as built by `search_pincode` /
`_get_fallback_substore`: the dict `{"pincode", "substore_id",
"substore_name", "city", "state"}`, plus the `canonical_pincode` key
present only on fallback records. -/
structure PincodeData where
  pincode : String
  substore_id : Option String
  substore_name : String
  city : String
  state : String
  canonical_pincode : Option String
deriving Repr, DecidableEq

/-- Numeric value of a decimal digit character, `none` otherwise. -/
def digitVal (c : Char) : Option Nat :=
  if 48 ≤ c.toNat ∧ c.toNat ≤ 57 then some (c.toNat - 48) else none

/-- Accumulate decimal digits left to right. -/
def parseDigits : List Char → Nat → Option Nat
  | [], acc => some acc
  | c :: cs, acc =>
    match digitVal c with
    | none => none
    | some d => parseDigits cs (acc * 10 + d)

/-- Python `int(pincode)` (amul_api.py line 301) restricted to plain digit
strings (the only shape a pincode takes): the numeric value when every
character is a digit, `none` otherwise — the `except` at line 467 turns a
parse failure into `None`. -/
def pinToNat? (s : String) : Option Nat :=
  match s.data with
  | [] => none
  | cs => parseDigits cs 0

/-- `AmulAPI._get_fallback_substore` (amul_api.py lines 298-470): parse the
pincode as an integer (any parse failure is caught, returning `None`) and
dispatch on the hand-curated numeric ranges, in source order. -/
def get_fallback_substore (pincode : String) : Option PincodeData :=
  match pinToNat? pincode with
  | none => none
  | some n =>
    if 400001 ≤ n ∧ n ≤ 400104 then
      some ⟨pincode, get_substore_id "mumbai-br", "mumbai-br", "Mumbai", "Maharashtra",
        some "400001"⟩
    else if 411001 ≤ n ∧ n ≤ 411060 then
      some ⟨pincode, get_substore_id "pune-br", "pune-br", "Pune", "Maharashtra",
        some "411001"⟩
    else if 413001 ≤ n ∧ n ≤ 413736 then
      some ⟨pincode, get_substore_id "solapur-br", "solapur-br", "Solapur", "Maharashtra",
        some "413001"⟩
    else if 422001 ≤ n ∧ n ≤ 422605 then
      some ⟨pincode, get_substore_id "nashik-br", "nashik-br", "Nashik", "Maharashtra",
        some "422001"⟩
    else if 431001 ≤ n ∧ n ≤ 431542 then
      some ⟨pincode, get_substore_id "aurangabad-br", "aurangabad-br", "Aurangabad",
        "Maharashtra", some "431001"⟩
    else if 110001 ≤ n ∧ n ≤ 110096 then
      some ⟨pincode, get_substore_id "delhi", "delhi", "Delhi", "Delhi", some "110001"⟩
    else if (201001 ≤ n ∧ n ≤ 203207) ∨ (244001 ≤ n ∧ n ≤ 247778) then
      some ⟨pincode, get_substore_id "up-ncr", "up-ncr", "NCR", "Uttar Pradesh",
        some "201001"⟩
    else if 121001 ≤ n ∧ n ≤ 122505 then
      some ⟨pincode, get_substore_id "haryana", "haryana", "Gurgaon/Faridabad", "Haryana",
        some "122001"⟩
    else if 560001 ≤ n ∧ n ≤ 560110 then
      some ⟨pincode, get_substore_id "karnataka", "karnataka", "Bangalore", "Karnataka",
        some "560001"⟩
    else if 600001 ≤ n ∧ n ≤ 600126 then
      some ⟨pincode, get_substore_id "tamil-nadu-1", "tamil-nadu-1", "Chennai",
        "Tamil Nadu", some "600001"⟩
    else if 500001 ≤ n ∧ n ≤ 500097 then
      some ⟨pincode, get_substore_id "telangana", "telangana", "Hyderabad", "Telangana",
        some "500001"⟩
    else if 380001 ≤ n ∧ n ≤ 382481 then
      some ⟨pincode, get_substore_id "gujarat", "gujarat", "Ahmedabad", "Gujarat",
        some "380001"⟩
    else if 700001 ≤ n ∧ n ≤ 700156 then
      some ⟨pincode, get_substore_id "west-bengal", "west-bengal", "Kolkata",
        "West Bengal", some "700001"⟩
    else if 302001 ≤ n ∧ n ≤ 303807 then
      some ⟨pincode, get_substore_id "rajasthan", "rajasthan", "Jaipur", "Rajasthan",
        some "302001"⟩
    else if 682001 ≤ n ∧ n ≤ 695615 then
      some ⟨pincode, get_substore_id "kerala", "kerala", "Kerala", "Kerala",
        some "695001"⟩
    else if 403001 ≤ n ∧ n ≤ 403806 then
      some ⟨pincode, get_substore_id "goa", "goa", "Goa", "Goa", some "403001"⟩
    else
      none

/-- The `pincode_info` record intercepted by the live browser path (the
`result['pincode_info']` of amul_api.py lines 120-135). -/
structure LivePincodeInfo where
  pincode : Option String
  substore : String
  city : String
  state : String
deriving Repr, DecidableEq

/-- `AmulAPI.search_pincode` (amul_api.py lines 238-296), as a function of
the process-lifetime `_pincode_cache` and a `live` oracle standing for the
browser-driven lookup's `pincode_info` result. Returns the resolution (if
any), the `canonical_pincode` session field assigned during the call
(`none` on the cache-hit path, which assigns nothing), and whether the live
browser path was invoked. The fallback range table is consulted before any
live lookup; only when it misses is the browser driven. -/
def search_pincode (cache : List (String × PincodeData))
    (live : Option LivePincodeInfo) (pincode : String) :
    Option PincodeData × Option String × Bool :=
  match (cache.find? (fun kv => kv.1 == pincode)).map (fun kv => kv.2) with
  | some d => (some d, none, false)
  | none =>
    match get_fallback_substore pincode with
    | some fd => (some fd, some (fd.canonical_pincode.getD pincode), false)
    | none =>
      match live with
      | some info =>
        let substore_alias := info.substore
        (some ⟨info.pincode.getD pincode,
            some ((get_substore_id substore_alias).getD substore_alias),
            substore_alias, info.city, info.state, none⟩,
          some pincode, true)
      | none => (none, none, true)

/-- C9: Resolving postal code 400063 hits the 400001-400104 range rule, so
for any live-lookup oracle and an empty pincode cache it returns the Mumbai
partition (the `mumbai-br` substore id) with canonical_code 400001, without
invoking the live browser-driven resolution path. -/
theorem pincode_400063_resolves_via_range_table (live : Option LivePincodeInfo) :
    search_pincode [] live "400063" =
      (some ⟨"400063", some "66506000c8f2d6e221b9193a", "mumbai-br", "Mumbai",
        "Maharashtra", some "400001"⟩, some "400001", false) := by
  cases live <;> rfl

/-- A notification dispatched by `_process_stock_update` is addressed to
the user being processed. -/
theorem process_stock_update_notif_user (cache : StockCache) (uid : Nat)
    (p : MonProduct) :
    ∀ n, (process_stock_update cache uid p).2 = some n → n.user_id = uid := by
  intro n
  cases hl : cacheLookup cache (uid, p.sku) with
  | none =>
    simp only [process_stock_update, hl]
    intro h
    cases h
  | some prev =>
    cases hcl : classify prev ⟨p.in_stock, p.quantity⟩ with
    | none =>
      simp only [process_stock_update, hl, hcl]
      intro h
      cases h
    | some t =>
      simp only [process_stock_update, hl, hcl]
      intro h
      have h' : (⟨uid, p.sku, t, p.quantity, p.quantity - prev.quantity⟩ : Notification)
          = n := Option.some.inj h
      rw [← h']

/-- All notifications from one user's subscription processing are addressed
to that user. -/
theorem process_user_subs_notif_user (sendOk : Notification → Bool)
    (m : List (String × MonProduct)) (uid : Nat) (skus : List String) :
    ∀ (cache : StockCache), ∀ x ∈ (process_user_subs sendOk m uid skus cache).2,
      x.1.user_id = uid := by
  induction skus with
  | nil => intro cache x hx; cases hx
  | cons sku rest ih =>
    intro cache x hx
    simp only [process_user_subs] at hx
    cases hl : assocLookupP m sku with
    | none =>
      simp only [hl] at hx
      exact ih cache x hx
    | some p =>
      simp only [hl] at hx
      rcases List.mem_append.mp hx with hsent | htail
      · cases hps : (process_stock_update cache uid p).2 with
        | none => rw [hps] at hsent; cases hsent
        | some n =>
          rw [hps] at hsent
          simp at hsent
          rw [hsent]
          exact process_stock_update_notif_user cache uid p n hps
      · exact ih _ x htail

/-- All notifications from a substore tick are addressed to users of that
tick. -/
theorem check_users_notif_user (sendOk : Notification → Bool)
    (m : List (String × MonProduct)) (subs : Nat → List String) (uids : List Nat) :
    ∀ (cache : StockCache), ∀ x ∈ (check_users sendOk m subs uids cache).2,
      x.1.user_id ∈ uids := by
  induction uids with
  | nil => intro cache x hx; cases hx
  | cons uid rest ih =>
    intro cache x hx
    simp only [check_users] at hx
    rcases List.mem_append.mp hx with hh | ht
    · exact List.mem_cons.mpr
        (Or.inl (process_user_subs_notif_user sendOk m uid (subs uid) cache x hh))
    · exact List.mem_cons_of_mem _ (ih _ x ht)

theorem check_substore_stock_notif_user (sendOk : Notification → Bool)
    (products : List MonProduct) (subs : Nat → List String) (uids : List Nat)
    (cache : StockCache) :
    ∀ x ∈ (check_substore_stock sendOk products subs uids cache).2,
      x.1.user_id ∈ uids := by
  intro x hx
  simp only [check_substore_stock] at hx
  by_cases h : products.isEmpty
  · rw [if_pos h] at hx; cases hx
  · rw [if_neg h] at hx
    exact check_users_notif_user sendOk _ subs uids cache x hx

/-- Every notification of a tick belongs to a user of some checked group. -/
theorem runGroups_notif_user (sendOk : Notification → Bool)
    (fetch : String → Except Unit (List MonProduct)) (subs : Nat → List String) :
    ∀ (groups : List (String × List Nat)) (cache : StockCache),
      ∀ x ∈ (runGroups sendOk fetch subs groups cache).2,
        ∃ g ∈ groups, x.1.user_id ∈ g.2 := by
  intro groups
  induction groups with
  | nil => intro cache x hx; cases hx
  | cons g rest ih =>
    intro cache x hx
    rcases g with ⟨sid, uids⟩
    simp only [runGroups] at hx
    cases hf : fetch sid with
    | error e =>
      simp only [hf] at hx
      obtain ⟨g', hg', hmem⟩ := ih _ x hx
      exact ⟨g', List.mem_cons_of_mem _ hg', hmem⟩
    | ok products =>
      simp only [hf] at hx
      rcases List.mem_append.mp hx with hh | ht
      · exact ⟨(sid, uids), List.mem_cons_self _ _,
          check_substore_stock_notif_user sendOk products subs uids cache x hh⟩
      · obtain ⟨g', hg', hmem⟩ := ih _ x ht
        exact ⟨g', List.mem_cons_of_mem _ hg', hmem⟩

/-- `addToGroup` preserves a property holding of all grouped users and of
the appended user. -/
theorem addToGroup_forall (Q : UserRow → Prop) (sid : String) (u : UserRow)
    (hu : Q u) :
    ∀ (acc : List (String × List UserRow)),
      (∀ g ∈ acc, ∀ v ∈ g.2, Q v) →
      ∀ g ∈ addToGroup acc sid u, ∀ v ∈ g.2, Q v := by
  intro acc
  induction acc with
  | nil =>
    intro _ g hg v hv
    rcases List.mem_singleton.mp hg with rfl
    rcases List.mem_singleton.mp hv with rfl
    exact hu
  | cons hd rest ih =>
    rcases hd with ⟨k, us⟩
    intro hacc g hg v hv
    simp only [addToGroup] at hg
    by_cases hk : k = sid
    · rw [if_pos hk] at hg
      rcases List.mem_cons.mp hg with rfl | hg'
      · rcases List.mem_append.mp hv with hv' | hv'
        · exact hacc (k, us) (List.mem_cons_self _ _) v hv'
        · rcases List.mem_singleton.mp hv' with rfl
          exact hu
      · exact hacc g (List.mem_cons_of_mem _ hg') v hv
    · rw [if_neg hk] at hg
      rcases List.mem_cons.mp hg with rfl | hg'
      · exact hacc (k, us) (List.mem_cons_self _ _) v hv
      · exact ih (fun g' hg' => hacc g' (List.mem_cons_of_mem _ hg')) g hg' v hv

/-- Every user put in a group by the grouping loop has a truthy
(non-null, nonempty) `substore_id` and comes from the input list (or the
starting accumulator). -/
theorem group_users_forall (Q : UserRow → Prop) :
    ∀ (users : List UserRow) (acc : List (String × List UserRow)),
      (∀ g ∈ acc, ∀ v ∈ g.2, Q v) →
      (∀ v ∈ users, ∀ sid, v.substore_id = some sid → sid ≠ "" → Q v) →
      ∀ g ∈ group_users users acc, ∀ v ∈ g.2, Q v := by
  intro users
  induction users with
  | nil =>
    intro acc hacc _ g hg v hv
    exact hacc g hg v hv
  | cons u rest ih =>
    intro acc hacc husers g hg v hv
    simp only [group_users] at hg
    cases hsid : u.substore_id with
    | none =>
      simp only [hsid] at hg
      exact ih acc hacc (fun w hw => husers w (List.mem_cons_of_mem _ hw)) g hg v hv
    | some sid =>
      simp only [hsid] at hg
      by_cases hemp : sid = ""
      · rw [if_pos hemp] at hg
        exact ih acc hacc (fun w hw => husers w (List.mem_cons_of_mem _ hw)) g hg v hv
      · rw [if_neg hemp] at hg
        have hQu : Q u := husers u (List.mem_cons_self _ _) sid hsid hemp
        exact ih (addToGroup acc sid u) (addToGroup_forall Q sid u hQu acc hacc)
          (fun w hw => husers w (List.mem_cons_of_mem _ hw)) g hg v hv

/-- C10: An active user whose stored record has a pincode but whose
substore_id is null or empty is silently skipped on every tick: the
active-user query (filtering only on is_active and pincode) includes them,
but they are assigned to no substore group, so no subscription of theirs is
diffed and no notification of the tick is addressed to them. -/
theorem user_without_substore_is_silently_skipped (sendOk : Notification → Bool)
    (fetch : String → Except Unit (List MonProduct)) (subs : Nat → List String)
    (rows : List UserRow) (u : UserRow) (cache : StockCache)
    (hmem : u ∈ rows) (hact : u.is_active = true) (hpin : u.pincode.isSome = true)
    (hnosub : ∀ v ∈ rows, v.user_id = u.user_id →
      v.substore_id = none ∨ v.substore_id = some "") :
    u ∈ get_active_users rows ∧
    (∀ g ∈ group_users (get_active_users rows) [], ∀ v ∈ g.2,
      v.user_id ≠ u.user_id) ∧
    (∀ x ∈ (check_all_stocks sendOk fetch subs rows cache).2,
      x.1.user_id ≠ u.user_id) := by
  have hactive : u ∈ get_active_users rows :=
    List.mem_filter.mpr ⟨hmem, by simp [hact, hpin]⟩
  have hgroups : ∀ g ∈ group_users (get_active_users rows) [], ∀ v ∈ g.2,
      v.user_id ≠ u.user_id := by
    refine group_users_forall (fun v => v.user_id ≠ u.user_id) (get_active_users rows) []
      (fun g hg => absurd hg (List.not_mem_nil g)) ?_
    intro v hv sid hsid hne hvid
    have hvrows : v ∈ rows := (List.mem_filter.mp hv).1
    rcases hnosub v hvrows hvid with h | h
    · rw [h] at hsid; cases hsid
    · rw [h] at hsid
      exact hne (Option.some.inj hsid).symm
  refine ⟨hactive, hgroups, ?_⟩
  intro x hx
  simp only [check_all_stocks] at hx
  by_cases hemp : (get_active_users rows).isEmpty
  · rw [if_pos hemp] at hx
    cases hx
  · rw [if_neg hemp] at hx
    obtain ⟨g', hg', hxm⟩ := runGroups_notif_user sendOk fetch subs _ cache x hx
    obtain ⟨g, hg, rfl⟩ := List.mem_map.mp hg'
    obtain ⟨v, hv, hvid⟩ := List.mem_map.mp hxm
    intro hcontra
    exact hgroups g hg v hv (hvid.trans hcontra)

theorem user_without_substore_is_silently_skipped_witness :
    (⟨1, true, some "400001", none⟩ : UserRow) ∈
        get_active_users [⟨1, true, some "400001", none⟩] ∧
    (∀ g ∈ group_users (get_active_users [⟨1, true, some "400001", none⟩]) [],
      ∀ v ∈ g.2, v.user_id ≠ (⟨1, true, some "400001", none⟩ : UserRow).user_id) ∧
    (∀ x ∈ (check_all_stocks (fun _ => true) (fun _ => .ok []) (fun _ => [])
        [⟨1, true, some "400001", none⟩] []).2,
      x.1.user_id ≠ (⟨1, true, some "400001", none⟩ : UserRow).user_id) :=
  user_without_substore_is_silently_skipped (fun _ => true) (fun _ => .ok [])
    (fun _ => []) [⟨1, true, some "400001", none⟩] ⟨1, true, some "400001", none⟩ []
    (by decide) rfl rfl (by decide)
